import Mathlib

/-!
Verification of the MoziThermoDB mixture-matrix engine.

This file shallowly embeds the TypeScript sources of the repository
(`MoziMatrixData` and its utility modules) into Lean 4 and proves, or
refutes, the specification claims about them.

Modelling conventions:
- JavaScript numbers are modelled by `JSNum`: a rational, a signed
  infinity, or NaN.  `jsParseNum` models `Number(string)` on the decimal
  fragment of its grammar (optional sign, digits with an optional single
  decimal point, the `Infinity` literal, empty/whitespace-only input
  coerces to 0); hexadecimal and exponent forms are outside the fragment
  exercised by the data and are mapped to NaN.
- JavaScript strings are modelled by `String`, with the handful of used
  methods (`trim`, `toLowerCase`, `split`, `includes`, `startsWith`,
  `slice`, `join`) implemented over the character list.
- JavaScript objects used as string-keyed maps are modelled by
  association lists in insertion order, which is the enumeration order
  of `Object.entries` for the non-numeric keys used here.
- Thrown exceptions are modelled by `Except String`; quote characters in
  the thrown message texts are omitted.
- `Array.prototype.sort` is modelled by a stable insertion sort; on
  every comparator arising here this agrees with the ECMAScript
  specification of a stable sort.
-/

/-- A JavaScript number: NaN, a signed infinity, or a finite rational. -/
inductive JSNum where
  | nan : JSNum
  | inf : Bool → JSNum
  | fin : ℚ → JSNum
deriving DecidableEq

/-- A JavaScript value that is either a string or a number
(the `value` field of a raw record is typed `number | string`). -/
inductive JSVal where
  | str : String → JSVal
  | num : JSNum → JSVal
deriving DecidableEq

/-- Model of `isNaN(n)` for an already-numeric argument. -/
def jsIsNaN : JSNum → Bool
  | .nan => true
  | _ => false

/-- Model of `String.prototype.trim` (ASCII whitespace fragment). -/
def jsTrim (s : String) : String :=
  ⟨((s.toList.dropWhile Char.isWhitespace).reverse.dropWhile Char.isWhitespace).reverse⟩

/-- Model of `String.prototype.toLowerCase` (ASCII fragment). -/
def jsToLower (s : String) : String :=
  ⟨s.toList.map Char.toLower⟩

/-- Occurrence test of `sub` as a contiguous sublist. -/
def containsSubL (sub : List Char) : List Char → Bool
  | [] => sub.isEmpty
  | c :: cs => sub.isPrefixOf (c :: cs) || containsSubL sub cs

/-- Model of `String.prototype.includes`. -/
def jsIncludes (s sub : String) : Bool :=
  containsSubL sub.toList s.toList

/-- Model of `String.prototype.startsWith` (at position 0). -/
def jsStartsWith (s pre : String) : Bool :=
  pre.toList.isPrefixOf s.toList

/-- Model of `String.prototype.slice(n)` for a nonnegative index. -/
def jsSliceFrom (s : String) (n : Nat) : String :=
  ⟨s.toList.drop n⟩

/-- String length as used by `slice`/`length` (code points). -/
def jsStrLen (s : String) : Nat :=
  s.toList.length

/-- Splitter on a nonempty separator, fuelled to stay structurally
recursive; `splitOnL sep fuel cs` splits `cs` at every occurrence of
`sep`.  The fuel is always instantiated at `cs.length + 1`. -/
def splitOnL (sep : List Char) : Nat → List Char → List (List Char)
  | 0, cs => [cs]
  | _ + 1, [] => [[]]
  | fuel + 1, c :: cs =>
    if sep.isPrefixOf (c :: cs) then
      [] :: splitOnL sep fuel ((c :: cs).drop sep.length)
    else
      match splitOnL sep fuel cs with
      | [] => [[c]]
      | p :: ps => (c :: p) :: ps

/-- Model of `String.prototype.split(sep)`: splitting on the empty
string yields the list of characters, as in JavaScript. -/
def jsSplit (s sep : String) : List String :=
  if sep = "" then s.toList.map (fun c => ⟨[c]⟩)
  else (splitOnL sep.toList (s.toList.length + 1) s.toList).map (fun cs => ⟨cs⟩)

/-- Model of `Array.prototype.join(sep)` on an array of strings. -/
def joinSep (sep : String) : List String → String
  | [] => ""
  | x :: xs => xs.foldl (fun acc y => acc ++ sep ++ y) x

/-- Digit run to a natural number. -/
def digitsToNat (cs : List Char) : Nat :=
  cs.foldl (fun acc c => acc * 10 + (c.toNat - 48)) 0

/-- Model of `Number(string)` on the decimal fragment of the grammar
(see the module docstring). -/
def jsParseNum (s : String) : JSNum :=
  let t := jsTrim s
  if t = "" then .fin 0
  else
    let cs := t.toList
    let signBody : Bool × List Char :=
      match cs with
      | '-' :: rest => (true, rest)
      | '+' :: rest => (false, rest)
      | _ => (false, cs)
    let neg := signBody.1
    let body := signBody.2
    if body = "Infinity".toList then .inf (!neg)
    else
      match splitOnL ['.'] (body.length + 1) body with
      | [as] =>
        if as ≠ [] ∧ as.all Char.isDigit then
          .fin (if neg then -(digitsToNat as : ℚ) else (digitsToNat as : ℚ))
        else .nan
      | [as, bs] =>
        if (as ≠ [] ∨ bs ≠ []) ∧ as.all Char.isDigit ∧ bs.all Char.isDigit then
          let q : ℚ := (digitsToNat as : ℚ) + (digitsToNat bs : ℚ) / ((10 : ℚ) ^ bs.length)
          .fin (if neg then -q else q)
        else .nan
      | _ => .nan

/-- Coercion of a raw `number | string` value by `Number(...)`
(a number passes through unchanged). -/
def jsCoerceNum : JSVal → JSNum
  | .str s => jsParseNum s
  | .num n => n

/-- Model of `String(value)` on the values appearing as mixture labels
and identity fields (strings pass through; numbers are rendered
canonically, a case never exercised by the data). -/
def jsValToString : JSVal → String
  | .str s => s
  | .num .nan => "NaN"
  | .num (.inf b) => if b then "Infinity" else "-Infinity"
  | .num (.fin q) => if q.den = 1 then toString q.num else toString q

/-- Comparator outcome of `a - b` for an `Array.prototype.sort`
comparator: `true` means the comparator value is not positive (NaN is
treated as 0 by the sort), so the first argument stays before the
second. -/
def jsCmpLe : JSNum → JSNum → Bool
  | .nan, _ => true
  | _, .nan => true
  | .inf b, .inf b' => !b || b'
  | .inf b, .fin _ => !b
  | .fin _, .inf b' => b'
  | .fin x, .fin y => x ≤ y

/-- Stable ordered insert for the sort model. -/
def jsOrderedInsert (le : α → α → Bool) (a : α) : List α → List α
  | [] => [a]
  | b :: l => if le a b then a :: b :: l else b :: jsOrderedInsert le a l

/-- Model of `Array.prototype.sort(cmp)` as a stable insertion sort. -/
def jsSortLe (le : α → α → Bool) : List α → List α
  | [] => []
  | a :: l => jsOrderedInsert le a (jsSortLe le l)

/-- Lookup in a string-keyed JavaScript object modelled as an
association list (`obj[k]`, `undefined` becomes `none`). -/
def objGet (l : List (String × α)) (k : String) : Option α :=
  (l.find? (fun p => p.1 = k)).map (fun p => p.2)

/-- Assignment `obj[k] = v`: update in place if the key exists
(keeping its position), otherwise append. -/
def objSet (l : List (String × α)) (k : String) (v : α) : List (String × α) :=
  match l with
  | [] => [(k, v)]
  | (k', v') :: rest =>
    if k' = k then (k, v) :: rest else (k', v') :: objSet rest k v

/-- In-place update of an existing key; `none` when the key is absent
(the JavaScript code would dereference `undefined`). -/
def objUpdate (l : List (String × α)) (k : String) (f : α → α) :
    Option (List (String × α)) :=
  match l with
  | [] => none
  | (k', v') :: rest =>
    if k' = k then some ((k', f v') :: rest)
    else (objUpdate rest k f).map (fun r => (k', v') :: r)

/-- Accumulator pass for `dedupFirst`. -/
def dedupFirstAux (seen : List String) : List String → List String
  | [] => []
  | x :: xs =>
    if seen.contains x then dedupFirstAux seen xs
    else x :: dedupFirstAux (x :: seen) xs

/-- Model of `Array.from(new Set(xs))`: deduplication keeping first
occurrences in order. -/
def dedupFirst (xs : List String) : List String :=
  dedupFirstAux [] xs

/-- Boolean success test for an `Except` computation. -/
def exceptIsOk : Except ε α → Bool
  | .ok _ => true
  | .error _ => false

instance [DecidableEq ε] [DecidableEq α] : DecidableEq (Except ε α) :=
  fun x y =>
    match x, y with
    | .ok a, .ok b =>
      decidable_of_iff (a = b) ⟨fun h => h ▸ rfl, fun h => Except.ok.inj h⟩
    | .ok _, .error _ => isFalse (fun h => Except.noConfusion h)
    | .error _, .ok _ => isFalse (fun h => Except.noConfusion h)
    | .error e, .error f =>
      decidable_of_iff (e = f) ⟨fun h => h ▸ rfl, fun h => Except.error.inj h⟩

/-- Component identity record (`mozithermodb-settings` shape). -/
structure Component where
  name : String
  formula : String
  state : String
  mole_fraction : ℚ
deriving DecidableEq

/-- One row of source data
(`{ name, symbol, value: number | string, unit }`). -/
structure RawThermoRecord where
  name : String
  symbol : String
  value : JSVal
  unit : String
deriving DecidableEq

/-- A cleaned record whose value is a number. -/
structure ThermoRecord where
  name : String
  symbol : String
  value : JSNum
  unit : String
deriving DecidableEq

/-- Entry of the per-mixture `props` list: a property symbol with its
unit. -/
structure Props where
  symbol : String
  unit : String
deriving DecidableEq

/-- Placeholder mode of a parsed property reference (the source uses
the string union "numeric" | "component"). -/
inductive ParseMode where
  | numeric : ParseMode
  | component : ParseMode
deriving DecidableEq

/-- Result of `propertyParser`.  The source field `propertyPrefix` is
rendered here as `propertyPfx`. -/
structure PropertyParser where
  propertyPfx : String
  propertyDelimiter : String
  i : String
  j : String
  mode : ParseMode
deriving DecidableEq

/-- Modelled from the spec: `set_component_id` lives in the external
`mozithermodb-settings` package, whose source is not part of this
repository.  Spec section 4.2: join the component field values named by
the key template's dash-separated parts (e.g. Name-Formula gives
"Methanol-CH3OH"), matching the template parts against field names
case-insensitively. -/
def set_component_id (component : Component) (key : String) : String :=
  joinSep "-" ((jsSplit key "-").map (fun part =>
    match jsToLower part with
    | "name" => component.name
    | "formula" => component.formula
    | "state" => component.state
    | _ => "undefined"))

/-- Default ignore list of `cleanRawThermoRecord`. -/
def defaultIgnoreNames : List String :=
  ["Name", "Formula", "State", "CAS", "InChI", "SMILES"]

/-- Embedding of `cleanRawThermoRecord` (src/utils, part_013): drop
rows whose name is in the ignore list, coerce string values with
`Number(...)`, and keep exactly the rows whose coerced value is a
non-NaN number. -/
def cleanRawThermoRecord (data : List RawThermoRecord)
    (ignoreNames : List String := defaultIgnoreNames) : List ThermoRecord :=
  (data.filter (fun record => !(ignoreNames.contains record.name))).flatMap
    (fun record =>
      let value := jsCoerceNum record.value
      if !(jsIsNaN value) then
        [{ name := record.name, symbol := record.symbol, value := value,
           unit := record.unit }]
      else [])

/-- Embedding of `getMixtureProps` (src/utils/db-tools.ts): unique
property symbols and units, where the stored symbol is the part of the
row symbol before the first occurrence of `propIdentifier` and
uniqueness keeps the first occurrence (`Map` insertion order).  The
source's `typeof record.symbol === "string"` guard is always true under
the record type.  `propsInsert` is one `Map` set-if-absent step. -/
def propsInsert (acc : List Props) (item : Props) : List Props :=
  if acc.any (fun p => p.symbol = item.symbol) then acc else acc ++ [item]

/-- Embedding of `getMixtureProps` (src/utils/db-tools.ts); see
`propsInsert`. -/
def getMixtureProps (data : List RawThermoRecord) (propIdentifier : String) :
    List Props :=
  let items :=
    (data.filter (fun record => jsIncludes record.symbol propIdentifier)).map
      (fun record =>
        ({ symbol := (jsSplit record.symbol propIdentifier).headD "",
           unit := record.unit } : Props))
  items.foldl propsInsert []

/-- Mode computed when both placeholders were split off: numeric when
present and both pass the `!isNaN(Number(...))` test, else component -
the source's inline expression `res.i && res.j` then `!isNaN(...)`,
duplicated at its two call sites and factored out here. -/
def parseMode (iv jv : String) : ParseMode :=
  if iv ≠ "" ∧ jv ≠ "" then
    if ¬ jsIsNaN (jsParseNum iv) ∧ ¬ jsIsNaN (jsParseNum jv) then .numeric
    else .component
  else .component

/-- Embedding of `propertyParser` (src/utils, part_012). -/
def propertyParser (propertySymbol : String)
    (propertyDelimiters : List String := ["|", "_"]) : PropertyParser :=
  let delimiters := propertyDelimiters.filter (fun d => d ≠ "")
  let trimmed := jsTrim propertySymbol
  match delimiters.find? (fun d => jsIncludes trimmed d) with
  | none =>
    { propertyPfx := trimmed, propertyDelimiter := "", i := "", j := "",
      mode := .component }
  | some mainDelimiter =>
    let parts := (jsSplit trimmed mainDelimiter).map jsTrim
    let propertyPart := parts.headD ""
    match delimiters.find?
        (fun d => d ≠ mainDelimiter ∧ jsIncludes propertyPart d) with
    | some nestedDelimiter =>
      let subParts := (jsSplit propertyPart nestedDelimiter).map jsTrim
      let iv := subParts.getD 1 ""
      let jv := subParts.getD 2 ""
      { propertyPfx := subParts.headD "", propertyDelimiter := mainDelimiter,
        i := iv, j := jv,
        mode := parseMode iv jv }
    | none =>
      if delimiters.indexOf mainDelimiter = 0 ∧ delimiters.length > 1 then
        { propertyPfx := propertyPart, propertyDelimiter := mainDelimiter,
          i := "", j := "", mode := .component }
      else
        let directParts := (jsSplit trimmed mainDelimiter).map jsTrim
        let iv := directParts.getD 1 ""
        let jv := directParts.getD 2 ""
        { propertyPfx := directParts.headD "",
          propertyDelimiter := mainDelimiter, i := iv, j := jv,
          mode := parseMode iv jv }

/-- Embedding of `generateMixturePropertyKey` (src/utils, part_012).
The source's try/catch never fires since the modelled
`set_component_id` is total. -/
def generateMixturePropertyKey (property : String) (i j : Component)
    (componentKey : String) (propertyDelimiter : String := "_") : String :=
  property ++ propertyDelimiter ++ set_component_id i componentKey ++
    propertyDelimiter ++ set_component_id j componentKey

/-- Embedding of `generateMixtureId` (src/utils/mixture-tools.ts). -/
def generateMixtureId (componentId_1 componentId_2 delimiter : String) :
    String :=
  joinSep delimiter [componentId_1, componentId_2]

/-- Embedding of `findMixtureComponent` (src/utils/mixture-tools.ts):
first key template in order under which some component's id matches the
token case-insensitively. -/
def findMixtureComponent (componentId : String) (components : List Component)
    (componentKey : List String := ["Name", "Formula", "Name-Formula"]) :
    Option Component :=
  componentKey.findSome? (fun key =>
    components.find? (fun component =>
      jsToLower (set_component_id component key) = jsToLower componentId))

/-- Embedding of `findMixtureKey` (src/utils/mixture-tools.ts): find a
key template under which the single component's id occurs among the
mixture id's delimiter-split tokens (case-insensitive). -/
def findMixtureKey (mixtureId : String) (component : Component)
    (mixtureKeys : List String := ["Name", "Formula", "Name-Formula"])
    (mixtureDelimiter : String := "|") : Except String String :=
  let componentIds :=
    (jsSplit mixtureId mixtureDelimiter).map (fun id => jsToLower (jsTrim id))
  match mixtureKeys.find? (fun key =>
      componentIds.contains (jsToLower (set_component_id component key))) with
  | some key => .ok key
  | none =>
    .error ("Failed to find mixture key for mixture ID " ++ mixtureId ++
      " and component " ++ component.name ++ ".")

/-- Embedding of `findMixtureKeyFromComponents`
(src/utils/mixture-tools.ts).  With fewer than two components the
source dereferences `components[1] = undefined` inside
`set_component_id`, a TypeError, modelled as an error. -/
def findMixtureKeyFromComponents (mixtureId : String)
    (components : List Component)
    (mixtureKeys : List String := ["Name", "Formula", "Name-Formula"])
    (mixtureDelimiter : String := "|") : Except String String :=
  let componentIds :=
    (jsSplit mixtureId mixtureDelimiter).map (fun id => jsToLower (jsTrim id))
  match components with
  | c1 :: c2 :: _ =>
    match mixtureKeys.find? (fun key =>
        componentIds.contains (jsToLower (set_component_id c1 key)) ∧
        componentIds.contains (jsToLower (set_component_id c2 key))) with
    | some key => .ok key
    | none =>
      .error ("Failed to find mixture key for mixture ID " ++ mixtureId ++
        " and components " ++ joinSep ", " (components.map Component.name) ++
        ".")
  | _ => .error "TypeError: undefined component in set_component_id"

/-- Engine output for one matrix cell
(`{ symbol, value, unit }`; an undefined cell value is `none`). -/
structure CustomProperty where
  symbol : String
  value : Option JSNum
  unit : String
deriving DecidableEq

/-- One entry of the normalized `ThermoMatrixRecordMap`. -/
structure MixtureEntry where
  mixtureKey : Option String
  mixtureIds : List String
  mixtureComponentIds : List String
  components : List Component
  records : List (String × List ThermoRecord)
  props : List Props
deriving DecidableEq

/-- A JavaScript `number[][]` built by positional assignment: a list of
slots where `none` is a hole (`undefined`). -/
abbrev JSMatrix := List (Option (List JSNum))

/-- Positional array assignment `arr[i] = v`, extending with holes. -/
def jsArraySet (l : List (Option α)) (i : Nat) (v : α) : List (Option α) :=
  match l, i with
  | [], 0 => [some v]
  | [], n + 1 => none :: jsArraySet [] n v
  | _ :: rest, 0 => some v :: rest
  | x :: rest, n + 1 => x :: jsArraySet rest n v

/-- Interpretation of a JavaScript number as an array index: defined
exactly when it is a nonnegative integer. -/
def jsIndexNat : JSNum → Option Nat
  | .fin q => if q.den = 1 ∧ 0 ≤ q.num then some q.num.toNat else none
  | _ => none

/-- Array read `m[i]` for a numeric index (`undefined` is `none`,
either from an invalid index or from a hole). -/
def jsMatrixRow (m : JSMatrix) (i : JSNum) : Option (List JSNum) :=
  (jsIndexNat i).bind (fun n => m.getD n none)

/-- Array read `row[j]` for a numeric index. -/
def jsRowCell (row : List JSNum) (j : JSNum) : Option JSNum :=
  (jsIndexNat j).bind (fun n => row.get? n)

/-- Index `components[Number(p) - 1]` used by the numeric placeholder
mode of `ij`. -/
def jsIndexSub1 (p : JSNum) : Option Nat :=
  match p with
  | .fin q => jsIndexNat (.fin (q - 1))
  | _ => none

/-- Embedding of `MoziMatrixData.getMixtureNames`: the distinct mixture
labels, in first-occurrence order. -/
def MoziMatrixData.getMixtureNames (data : List (List RawThermoRecord)) :
    List String :=
  dedupFirst (data.filterMap (fun recordSet =>
    (recordSet.find? (fun r => jsToLower r.name = "mixture")).map
      (fun r => jsValToString r.value)))

/-- One pass of the population loop of `normalizeMixture` over a single
row group.  A group without a (case-insensitive) Mixture row is skipped;
a group missing any of the Name/Formula/State rows throws; the mixture
key of the component is resolved with the utility `findMixtureKey`
before the entry is updated, as in the source. -/
def MoziMatrixData.normalizeStep (mixtureDelimiter propIdentifier : String)
    (st : List (String × MixtureEntry)) (record : List RawThermoRecord) :
    Except String (List (String × MixtureEntry)) :=
  match record.find? (fun r => jsToLower r.name = "mixture") with
  | none => .ok st
  | some mixtureNameRecord =>
    match record.find? (fun r => jsToLower r.name = "name"),
        record.find? (fun r => jsToLower r.name = "formula"),
        record.find? (fun r => jsToLower r.name = "state") with
    | some componentNameRecord, some componentFormulaRecord,
        some componentStateRecord => do
      let component : Component :=
        { name := jsValToString componentNameRecord.value,
          formula := jsValToString componentFormulaRecord.value,
          state := jsValToString componentStateRecord.value,
          mole_fraction := 0 }
      let mixtureKey_ ← findMixtureKey (jsValToString mixtureNameRecord.value)
        component ["Name", "Formula", "Name-Formula"] mixtureDelimiter
      let componentRawRecords := cleanRawThermoRecord record defaultIgnoreNames
      let componentId := set_component_id component mixtureKey_
      let props := getMixtureProps record propIdentifier
      match objUpdate st (jsValToString mixtureNameRecord.value) (fun e =>
          { e with
            components := e.components ++ [component],
            records := objSet e.records componentId componentRawRecords,
            props := props }) with
      | some st' => .ok st'
      | none => .error "TypeError: undefined mixture entry"
    | _, _, _ =>
      .error "Missing required component identity records (Name, Formula, State) in data for mixture normalization."

/-- Final pass of `normalizeMixture`: resolve each entry's mixture key
from its components (in entry order, aborting on the first failure, as
the mutating forEach of the source does). -/
def MoziMatrixData.assignMixtureKeys :
    List (String × MixtureEntry) → Except String (List (String × MixtureEntry))
  | [] => .ok []
  | (mixtureName, e) :: rest => do
    let mixtureKey ← findMixtureKeyFromComponents mixtureName e.components
      ["Name", "Formula", "Name-Formula"] "|"
    let rest' ← MoziMatrixData.assignMixtureKeys rest
    .ok ((mixtureName, { e with mixtureKey := some mixtureKey }) :: rest')

/-- Embedding of `MoziMatrixData.normalizeMixture` (part_016, second
class version): seed an entry per distinct mixture label with both
orderings of the label's delimiter-split ids, populate it from each row
group, then resolve each entry's mixture key. -/
def MoziMatrixData.normalizeMixture (data : List (List RawThermoRecord))
    (mixtureDelimiter : String := "|") (propIdentifier : String := "_i_j") :
    Except String (List (String × MixtureEntry)) := do
  let mixtureNames := MoziMatrixData.getMixtureNames data
  let seeded : List (String × MixtureEntry) := mixtureNames.map (fun mixture =>
    let mixtureComponentIds := (jsSplit mixture mixtureDelimiter).map jsTrim
    let mixtureId1 := generateMixtureId (mixtureComponentIds.getD 0 "")
      (mixtureComponentIds.getD 1 "") mixtureDelimiter
    let mixtureId2 := generateMixtureId (mixtureComponentIds.getD 1 "")
      (mixtureComponentIds.getD 0 "") mixtureDelimiter
    (mixture,
      { mixtureKey := none, mixtureIds := [mixtureId1, mixtureId2],
        mixtureComponentIds := mixtureComponentIds, components := [],
        records := [], props := [] }))
  let populated ← data.foldlM
    (MoziMatrixData.normalizeStep mixtureDelimiter propIdentifier) seeded
  MoziMatrixData.assignMixtureKeys populated

/-- Embedding of `MoziMatrixData.getComponentIndex`: maps each
component id (under the mixture's own key) to the position of its
matching token in the label's `mixtureComponentIds`. -/
def MoziMatrixData.getComponentIndex
    (matrixData : List (String × MixtureEntry)) (mixtureName : String) :
    Except String (List (String × Nat)) :=
  match objGet matrixData mixtureName with
  | none => .error "TypeError: undefined mixture entry"
  | some entry =>
    match entry.mixtureKey with
    | none => .error "TypeError: null mixture key"
    | some mixtureKey =>
      let components := entry.components
      let componentNames := components.map Component.name
      let componentFormulas := components.map Component.formula
      let componentIds :=
        components.map (fun component => set_component_id component mixtureKey)
      entry.mixtureComponentIds.enum.foldlM
        (fun res (index, id) =>
          match componentIds.findIdx? (fun componentId =>
              jsToLower componentId = jsToLower id ∨
              jsToLower (componentNames.getD (componentIds.indexOf componentId)
                "") = jsToLower id ∨
              jsToLower (componentFormulas.getD
                (componentIds.indexOf componentId) "") = jsToLower id) with
          | some componentIndex =>
            .ok (objSet res (componentIds.getD componentIndex "") index)
          | none =>
            .error ("Component with id " ++ id ++ " not found in mixture " ++
              mixtureName ++ "."))
        []

/-- Per-component inner body of `buildPropertyMatrix`: filter the
component's cleaned records to the property's rows, require at least
one, and emit values sorted by the comparator on the parsed column
suffix. -/
def MoziMatrixData.buildRow (propId : String)
    (componentRawRecords : List ThermoRecord) (componentId mixtureId : String) :
    Except String (List JSNum) :=
  let pfx := propId ++ "_"
  let propRecords :=
    componentRawRecords.filter (fun r => jsStartsWith r.symbol pfx)
  if propRecords.length = 0 then
    .error ("No records found for property with id " ++ propId ++
      " for component with id " ++ componentId ++ " in mixture " ++
      mixtureId ++ ".")
  else
    .ok ((jsSortLe (fun a b => jsCmpLe a.2 b.2)
      (propRecords.map (fun r =>
        (r.value, jsParseNum (jsSliceFrom r.symbol (jsStrLen pfx)))))).map
      (fun r => r.1))

/-- Embedding of `MoziMatrixData.buildPropertyMatrix`: rows indexed by
the component-index map, assigned positionally. -/
def MoziMatrixData.buildPropertyMatrix
    (matrixData : List (String × MixtureEntry)) (propId mixtureId : String) :
    Except String JSMatrix := do
  let componentIndices ← MoziMatrixData.getComponentIndex matrixData mixtureId
  match objGet matrixData mixtureId with
  | none => .error "TypeError: undefined mixture entry"
  | some mixtureData =>
    componentIndices.foldlM
      (fun res (componentId, index) =>
        match objGet mixtureData.records componentId with
        | none =>
          .error ("No raw thermo records found for component with id " ++
            componentId ++ " in mixture " ++ mixtureId ++ ".")
        | some componentRawRecords => do
          let row ← MoziMatrixData.buildRow propId componentRawRecords
            componentId mixtureId
          .ok (jsArraySet res index row))
      []

/-- Embedding of `MoziMatrixData.buildAllPropertyMatrices`. -/
def MoziMatrixData.buildAllPropertyMatrices
    (matrixData : List (String × MixtureEntry)) (mixtureId : String) :
    Except String (List (String × JSMatrix)) :=
  match objGet matrixData mixtureId with
  | none => .error "TypeError: undefined mixture entry"
  | some mixtureData =>
    (mixtureData.props.map Props.symbol).foldlM
      (fun res propId => do
        let m ← MoziMatrixData.buildPropertyMatrix matrixData propId mixtureId
        .ok (objSet res propId m))
      []

/-- Embedding of `MoziMatrixData.buildAllMixturePropertyMatrices`. -/
def MoziMatrixData.buildAllMixturePropertyMatrices
    (matrixData : List (String × MixtureEntry)) (mixtureKeys : List String) :
    Except String (List (String × List (String × JSMatrix))) :=
  mixtureKeys.foldlM
    (fun res mixtureKey => do
      let pd ← MoziMatrixData.buildAllPropertyMatrices matrixData mixtureKey
      .ok (objSet res mixtureKey pd))
    []

instance : DecidableEq JSMatrix := inferInstance

instance : DecidableEq (List (String × JSMatrix)) := inferInstance

instance : DecidableEq (List (String × List (String × JSMatrix))) :=
  inferInstance

/-- The claim-relevant state of a constructed `MoziMatrixData`
instance: the normalized index, its key list, and the eagerly built
property matrices.  The instance attributes `mixtureDelimiter` and
`propIdentifier` are the fixed values of the source class. -/
structure MoziMatrixData where
  mixtureDelimiter : String
  propIdentifier : String
  matrixData : List (String × MixtureEntry)
  mixtureKeys : List String
  mixturePropertyMatrices : List (String × List (String × JSMatrix))
deriving DecidableEq

/-- Embedding of the `MoziMatrixData` constructor (second class
version): normalize, collect keys, build every property matrix; any
failure makes construction throw. -/
def mkMoziMatrixData (data : List (List RawThermoRecord)) :
    Except String MoziMatrixData := do
  let md ← MoziMatrixData.normalizeMixture data "|" "_i_j"
  let keys := md.map Prod.fst
  let mats ← MoziMatrixData.buildAllMixturePropertyMatrices md keys
  .ok { mixtureDelimiter := "|", propIdentifier := "_i_j", matrixData := md,
        mixtureKeys := keys, mixturePropertyMatrices := mats }

/-- Embedding of `MoziMatrixData.getPropertyUnit`. -/
def MoziMatrixData.getPropertyUnit (self : MoziMatrixData)
    (mixtureName propertySymbol : String) : Except String String :=
  match objGet self.matrixData mixtureName with
  | none => .error "TypeError: undefined mixture entry"
  | some entry =>
    match entry.props.find? (fun p => p.symbol = propertySymbol) with
    | some p => .ok p.unit
    | none =>
      .error ("Property with symbol " ++ propertySymbol ++
        " not found for mixture " ++ mixtureName ++ ".")

/-- Embedding of `MoziMatrixData.getPropertyMatrix`. -/
def MoziMatrixData.getPropertyMatrix (self : MoziMatrixData)
    (mixtureId propId : String) : Except String JSMatrix :=
  if (objGet self.matrixData mixtureId).isNone then
    .error ("Mixture with id " ++ mixtureId ++ " not found.")
  else
    match objGet self.mixturePropertyMatrices mixtureId with
    | none => .error "TypeError: undefined mixture property matrices"
    | some pd =>
      match objGet pd propId with
      | none =>
        .error ("Property with id " ++ propId ++ " not found for mixture " ++
          mixtureId ++ ".")
      | some m => .ok m

/-- Embedding of `MoziMatrixData.getMatrixProperty` (second class
version; `componentKey` and `keyDelimiter` default to "Name-Formula"
and "_" at call sites).  The cell is read at the row of the first
component argument and the column of the second; fewer than two
components dereferences `undefined`. -/
def MoziMatrixData.getMatrixProperty (self : MoziMatrixData)
    (propertySymbol : String) (components : List Component)
    (mixtureId : String) (componentKey : String) (keyDelimiter : String) :
    Except String CustomProperty := do
  let pr := propertyParser propertySymbol ["|", "_"]
  let propUnit ← self.getPropertyUnit mixtureId pr.propertyPfx
  let propData ← self.getPropertyMatrix mixtureId pr.propertyPfx
  match components with
  | [] => .error "TypeError: undefined component"
  | [_] => do
    let _ ← MoziMatrixData.getComponentIndex self.matrixData mixtureId
    .error "TypeError: undefined component"
  | component_i :: component_j :: _ => do
    let componentIndices ←
      MoziMatrixData.getComponentIndex self.matrixData mixtureId
    match (objGet self.matrixData mixtureId).bind MixtureEntry.mixtureKey with
    | none => .error "TypeError: null mixture key"
    | some mixtureKey =>
      let i : JSNum :=
        match objGet componentIndices
            (set_component_id component_i mixtureKey) with
        | some n => .fin n
        | none => .nan
      let j : JSNum :=
        match objGet componentIndices
            (set_component_id component_j mixtureKey) with
        | some n => .fin n
        | none => .nan
      match jsMatrixRow propData i with
      | none => .error "TypeError: undefined matrix row"
      | some row =>
        .ok { symbol := generateMixturePropertyKey pr.propertyPfx component_i
                component_j componentKey keyDelimiter,
              value := jsRowCell row j, unit := propUnit }

/-- Embedding of `MoziMatrixData.ij` (second class version): placeholders
come from `propertyParser`; numeric mode indexes the mixture's component
list 1-based, component mode resolves tokens with
`findMixtureComponent`. -/
def MoziMatrixData.ij (self : MoziMatrixData)
    (propertySymbol mixtureId : String) (componentKey : String)
    (keyDelimiter : String) : Except String CustomProperty :=
  let pr := propertyParser propertySymbol ["|", "_"]
  match objGet self.matrixData mixtureId with
  | none => .error "TypeError: undefined mixture entry"
  | some entry => do
    let mixtureComponents := entry.components
    let componentsSet : List Component ←
      match pr.mode with
      | .numeric =>
        match (jsIndexSub1 (jsParseNum pr.i)).bind mixtureComponents.get?,
            (jsIndexSub1 (jsParseNum pr.j)).bind mixtureComponents.get? with
        | some component_i, some component_j => .ok [component_i, component_j]
        | _, _ =>
          .error ("Components with indices " ++ pr.i ++ " and " ++ pr.j ++
            " not found in mixture " ++ mixtureId ++ " for property " ++
            propertySymbol ++ ".")
      | .component =>
        match findMixtureComponent pr.i mixtureComponents
            ["Name", "Formula", "Name-Formula"],
            findMixtureComponent pr.j mixtureComponents
            ["Name", "Formula", "Name-Formula"] with
        | some component_i, some component_j => .ok [component_i, component_j]
        | _, _ =>
          .error ("Components with ids " ++ pr.i ++ " and " ++ pr.j ++
            " not found in mixture " ++ mixtureId ++ " for property " ++
            propertySymbol ++ ".")
    self.getMatrixProperty propertySymbol componentsSet mixtureId componentKey
      keyDelimiter

/-- Search loop of `findMixtureId` over the stored entries: the first
entry whose forward/reverse id list contains either candidate name. -/
def MoziMatrixData.findMixtureIdLoop (mixtureName1 mixtureName2 : String) :
    List (String × MixtureEntry) → Option String
  | [] => none
  | (mixtureName, entry) :: rest =>
    if entry.mixtureIds.contains mixtureName1 then some mixtureName
    else if entry.mixtureIds.contains mixtureName2 then some mixtureName
    else MoziMatrixData.findMixtureIdLoop mixtureName1 mixtureName2 rest

/-- Embedding of `MoziMatrixData.findMixtureId`: tries both orderings
of the given component names (joined with the mixture delimiter)
against every stored mixture's id list, by exact string comparison. -/
def MoziMatrixData.findMixtureId (self : MoziMatrixData)
    (componentNames : List String) : Except String String :=
  if componentNames.length = 0 then .error "Component names array is empty!"
  else
    let mixtureName1 := joinSep self.mixtureDelimiter componentNames
    let mixtureName2 := joinSep self.mixtureDelimiter componentNames.reverse
    match MoziMatrixData.findMixtureIdLoop mixtureName1 mixtureName2
        self.matrixData with
    | some mixtureName => .ok mixtureName
    | none =>
      .error ("No mixture found for components " ++
        joinSep ", " componentNames ++ ".")

/-- Search loop of the `findMixtureKey` method over the stored keys
(comparison on trimmed lower-cased ids). -/
def MoziMatrixData.findMixtureKeyLoop (normalizedMixtureIds : List String)
    (matrixData : List (String × MixtureEntry)) :
    List String → Except String (Option String)
  | [] => .ok none
  | mixtureKey :: rest =>
    match objGet matrixData mixtureKey with
    | none => .error "TypeError: undefined mixture entry"
    | some entry =>
      if entry.mixtureIds.any (fun id =>
          normalizedMixtureIds.contains (jsToLower (jsTrim id))) then
        .ok (some mixtureKey)
      else
        MoziMatrixData.findMixtureKeyLoop normalizedMixtureIds matrixData rest

/-- Embedding of the `MoziMatrixData.findMixtureKey` method:
case-insensitive search of candidate mixture id strings against every
stored mixture's id list. -/
def MoziMatrixData.findMixtureKey (self : MoziMatrixData)
    (mixtureIds : List String) : Except String String := do
  if mixtureIds.length = 0 then .error "Mixture IDs array is empty!"
  else
    let normalizedMixtureIds :=
      mixtureIds.map (fun id => jsToLower (jsTrim id))
    match ← MoziMatrixData.findMixtureKeyLoop normalizedMixtureIds
        self.matrixData self.mixtureKeys with
    | some mixtureKey => .ok mixtureKey
    | none =>
      .error ("No mixture key found for mixture IDs " ++
        joinSep ", " mixtureIds ++ ".")

/-- Embedding of `MoziMatrixData.ijs` (second class version): the
component names are the parser's two placeholders; the resolved
mixture's component pairs are enumerated in full, each value fetched
through `ij` with a synthesized per-pair symbol, keyed by the
componentKey-based pair id. -/
def MoziMatrixData.ijs (self : MoziMatrixData) (propertySymbol : String)
    (componentKey : String) (keyDelimiter : String) :
    Except String (List (String × Option JSNum)) := do
  let pr := propertyParser propertySymbol ["|", "_"]
  let componentNames := [pr.i, pr.j]
  let mixtureId ← self.findMixtureId componentNames
  match objGet self.matrixData mixtureId with
  | none => .error "TypeError: undefined mixture entry"
  | some entry =>
    match entry.mixtureKey, entry.components with
    | none, [] => .ok []
    | none, _ :: _ => .error "TypeError: null mixture key"
    | some mixtureKey, components =>
      (components.flatMap (fun component_i =>
        components.map (fun component_j => (component_i, component_j)))).foldlM
        (fun res (component_i, component_j) => do
          let component_i_id := set_component_id component_i mixtureKey
          let component_j_id := set_component_id component_j mixtureKey
          let propSymbolPair := pr.propertyPfx ++ keyDelimiter ++
            component_i_id ++ keyDelimiter ++ component_j_id
          let propValue ← self.ij propSymbolPair mixtureId componentKey
            keyDelimiter
          let componentPairKey := set_component_id component_i componentKey ++
            keyDelimiter ++ set_component_id component_j componentKey
          .ok (objSet res componentPairKey propValue.value))
        []

/-- Methanol component record of the running example dataset. -/
def methanolC : Component :=
  { name := "methanol", formula := "CH3OH", state := "l", mole_fraction := 0 }

/-- Ethanol component record of the running example dataset. -/
def ethanolC : Component :=
  { name := "ethanol", formula := "C2H5OH", state := "l", mole_fraction := 0 }

/-- Propanol component used by the distinct-third-group dataset. -/
def propanolC : Component :=
  { name := "propanol", formula := "C3H7OH", state := "l", mole_fraction := 0 }

/-- Methanol row group with the two coefficient values as parameters. -/
def famG1 (x1 x2 : ℚ) : List RawThermoRecord :=
  [ { name := "Mixture", symbol := "mix", value := .str "methanol|ethanol",
      unit := "" },
    { name := "Name", symbol := "name", value := .str "methanol", unit := "" },
    { name := "Formula", symbol := "formula", value := .str "CH3OH",
      unit := "" },
    { name := "State", symbol := "state", value := .str "l", unit := "" },
    { name := "a constant 1", symbol := "a_i_j_1", value := .num (.fin x1),
      unit := "1" },
    { name := "a constant 2", symbol := "a_i_j_2", value := .num (.fin x2),
      unit := "1" } ]

/-- Ethanol row group with the two coefficient values as parameters. -/
def famG2 (y1 y2 : ℚ) : List RawThermoRecord :=
  [ { name := "Mixture", symbol := "mix", value := .str "methanol|ethanol",
      unit := "" },
    { name := "Name", symbol := "name", value := .str "ethanol", unit := "" },
    { name := "Formula", symbol := "formula", value := .str "C2H5OH",
      unit := "" },
    { name := "State", symbol := "state", value := .str "l", unit := "" },
    { name := "a constant 1", symbol := "a_i_j_1", value := .num (.fin y1),
      unit := "1" },
    { name := "a constant 2", symbol := "a_i_j_2", value := .num (.fin y2),
      unit := "1" } ]

/-- Two-component dataset parameterized by its four coefficient
values (methanol row, then ethanol row). -/
def famData (x1 x2 y1 y2 : ℚ) : List (List RawThermoRecord) :=
  [famG1 x1 x2, famG2 y1 y2]

/-- The engine state that construction from `famData` produces (proved
below); the matrix rows are [x1, x2] and [y1, y2]. -/
def famState (x1 x2 y1 y2 : ℚ) : MoziMatrixData :=
  { mixtureDelimiter := "|", propIdentifier := "_i_j",
    matrixData := [("methanol|ethanol",
      { mixtureKey := some "Name",
        mixtureIds := ["methanol|ethanol", "ethanol|methanol"],
        mixtureComponentIds := ["methanol", "ethanol"],
        components := [methanolC, ethanolC],
        records := [("methanol",
            [ { name := "a constant 1", symbol := "a_i_j_1", value := .fin x1,
                unit := "1" },
              { name := "a constant 2", symbol := "a_i_j_2", value := .fin x2,
                unit := "1" } ]),
          ("ethanol",
            [ { name := "a constant 1", symbol := "a_i_j_1", value := .fin y1,
                unit := "1" },
              { name := "a constant 2", symbol := "a_i_j_2", value := .fin y2,
                unit := "1" } ])],
        props := [{ symbol := "a", unit := "1" }] })],
    mixtureKeys := ["methanol|ethanol"],
    mixturePropertyMatrices := [("methanol|ethanol",
      [("a", [some [.fin x1, .fin x2], some [.fin y1, .fin y2]])])] }

/-- The running example dataset: matrix rows [0, 1] and [2, 3]. -/
def sampleData : List (List RawThermoRecord) := famData 0 1 2 3

/-- Constructed engine state of the running example dataset. -/
def sampleEngine : MoziMatrixData := famState 0 1 2 3

/-- Methanol group carrying both an a_i_j series and a b_i_j row. -/
def c1G1 : List RawThermoRecord :=
  [ { name := "Mixture", symbol := "mix", value := .str "methanol|ethanol",
      unit := "" },
    { name := "Name", symbol := "name", value := .str "methanol", unit := "" },
    { name := "Formula", symbol := "formula", value := .str "CH3OH",
      unit := "" },
    { name := "State", symbol := "state", value := .str "l", unit := "" },
    { name := "a constant 1", symbol := "a_i_j_1", value := .num (.fin 0),
      unit := "1" },
    { name := "a constant 2", symbol := "a_i_j_2", value := .num (.fin 1),
      unit := "1" },
    { name := "b constant 1", symbol := "b_i_j_1", value := .num (.fin 5),
      unit := "K" } ]

/-- Ethanol group carrying only the a_i_j series. -/
def c1G2 : List RawThermoRecord := famG2 2 3

/-- Dataset whose two groups advertise different property sets. -/
def c1Data : List (List RawThermoRecord) := [c1G1, c1G2]

/-- Third row group duplicating the methanol component with different
coefficient values. -/
def dupG3 : List RawThermoRecord := famG1 9 8

/-- Three row groups for one binary label, the third duplicating a
declared component. -/
def threeDupData : List (List RawThermoRecord) := [famG1 0 1, famG2 2 3, dupG3]

/-- Third row group with a component foreign to the label. -/
def distinctG3 : List RawThermoRecord :=
  [ { name := "Mixture", symbol := "mix", value := .str "methanol|ethanol",
      unit := "" },
    { name := "Name", symbol := "name", value := .str "propanol", unit := "" },
    { name := "Formula", symbol := "formula", value := .str "C3H7OH",
      unit := "" },
    { name := "State", symbol := "state", value := .str "l", unit := "" },
    { name := "a constant 1", symbol := "a_i_j_1", value := .num (.fin 7),
      unit := "1" } ]

/-- Three row groups for one binary label with a distinct third
component. -/
def threeDistinctData : List (List RawThermoRecord) :=
  [famG1 0 1, famG2 2 3, distinctG3]

/-- A single row group for a two-token label. -/
def oneGroupData : List (List RawThermoRecord) := [famG1 0 1]

/-- A row group with a Mixture row but no State row. -/
def noStateG : List RawThermoRecord :=
  [ { name := "Mixture", symbol := "mix", value := .str "methanol|ethanol",
      unit := "" },
    { name := "Name", symbol := "name", value := .str "methanol", unit := "" },
    { name := "Formula", symbol := "formula", value := .str "CH3OH",
      unit := "" },
    { name := "a constant 1", symbol := "a_i_j_1", value := .num (.fin 0),
      unit := "1" } ]

/-- Dataset containing the State-less group. -/
def noStateData : List (List RawThermoRecord) := [noStateG, famG2 2 3]

/-- Whether a row group carries a (case-insensitive) Mixture row. -/
def hasMixtureRow (g : List RawThermoRecord) : Bool :=
  (g.find? (fun r => jsToLower r.name = "mixture")).isSome

/-- Whether a row group has a Mixture row but lacks one of the
Name/Formula/State identity rows. -/
def badIdentityGroup (g : List RawThermoRecord) : Bool :=
  hasMixtureRow g &&
    ((g.find? (fun r => jsToLower r.name = "name")).isNone ||
     (g.find? (fun r => jsToLower r.name = "formula")).isNone ||
     (g.find? (fun r => jsToLower r.name = "state")).isNone)

/-- Modelled from the spec: the specification-side column order of a
property row, for the refinement claim about `buildPropertyMatrix` -
the values of the (numeric suffix, value) pairs sorted by the numeric
suffix. -/
def specSortedRow (ps : List (ℚ × JSNum)) : List JSNum :=
  (List.insertionSort (fun a b => a.1 ≤ b.1) ps).map (fun p => p.2)

/-- Ten cleaned coefficient rows p_1 ... p_10, listed in lexical symbol
order (the order a string sort would produce). -/
def lexRows : List ThermoRecord :=
  [ { name := "r", symbol := "p_1", value := .fin 1, unit := "u" },
    { name := "r", symbol := "p_10", value := .fin 10, unit := "u" },
    { name := "r", symbol := "p_2", value := .fin 2, unit := "u" },
    { name := "r", symbol := "p_3", value := .fin 3, unit := "u" },
    { name := "r", symbol := "p_4", value := .fin 4, unit := "u" },
    { name := "r", symbol := "p_5", value := .fin 5, unit := "u" },
    { name := "r", symbol := "p_6", value := .fin 6, unit := "u" },
    { name := "r", symbol := "p_7", value := .fin 7, unit := "u" },
    { name := "r", symbol := "p_8", value := .fin 8, unit := "u" },
    { name := "r", symbol := "p_9", value := .fin 9, unit := "u" } ]

/-- The (suffix, value) pairs of `lexRows`, in the same order. -/
def lexPairs : List (ℚ × JSNum) :=
  [ (1, .fin 1), (10, .fin 10), (2, .fin 2), (3, .fin 3), (4, .fin 4),
    (5, .fin 5), (6, .fin 6), (7, .fin 7), (8, .fin 8), (9, .fin 9) ]

/-- Rows used by the cleaning claim: a whitespace-valued row, a bare
Mixture row, and an upper-cased NAME row. -/
def wsRow : RawThermoRecord :=
  { name := "x", symbol := "w", value := .str "  ", unit := "u" }

/-- A Mixture label row alone. -/
def mixLabelRow : RawThermoRecord :=
  { name := "Mixture", symbol := "mix", value := .str "methanol|ethanol",
    unit := "" }

/-- A row named NAME (upper-case), not matching the ignore list's
exact entry Name. -/
def upperNameRow : RawThermoRecord :=
  { name := "NAME", symbol := "n", value := .num (.fin 5), unit := "u" }

set_option maxRecDepth 8000

set_option maxHeartbeats 2000000

theorem exceptBind_ok_l (a : α) (f : α → Except ε β) :
    (Except.ok a >>= f) = f a := rfl

theorem exceptBind_err_l (e : ε) (f : α → Except ε β) :
    ((Except.error e : Except ε α) >>= f) = .error e := rfl

theorem exceptIsOk_bind_false {x : Except ε α} {f : α → Except ε β}
    (h : exceptIsOk x = false) : exceptIsOk (x >>= f) = false := by
  cases x with
  | ok a => simp [exceptIsOk] at h
  | error e => rfl

theorem exceptBind_eq_ok {x : Except ε α} {f : α → Except ε β} {b : β}
    (h : (x >>= f) = .ok b) : ∃ a, x = .ok a ∧ f a = .ok b := by
  cases x with
  | ok a => exact ⟨a, rfl, h⟩
  | error e => exact absurd h (by simp [exceptBind_err_l])

theorem findMixtureIdLoop_swap (n1 n2 : String)
    (l : List (String × MixtureEntry)) :
    MoziMatrixData.findMixtureIdLoop n1 n2 l =
      MoziMatrixData.findMixtureIdLoop n2 n1 l := by
  induction l with
  | nil => rfl
  | cons hd tl ih =>
    obtain ⟨name, e⟩ := hd
    simp only [MoziMatrixData.findMixtureIdLoop]
    by_cases h1 : n1 ∈ e.mixtureIds <;>
      by_cases h2 : n2 ∈ e.mixtureIds <;>
        simp [h1, h2, ih]

/-- Claim C5 (corrected): `findMixtureId` is order-reversal invariant
but case-sensitive: uppercase component names fail to resolve the
mixture stored as methanol|ethanol. -/
theorem claim_C5_cex :
    exceptIsOk (sampleEngine.findMixtureId ["Methanol", "Ethanol"]) = false ∧
    sampleEngine.findMixtureId ["methanol", "ethanol"] =
      .ok "methanol|ethanol" :=
  ⟨by decide, by decide⟩

/-- Claim C5, amended: mixture id lookup is invariant under
component-order reversal for `findMixtureId` (which compares ids
exactly, hence case-sensitively), and the `findMixtureKey` method is
additionally case-insensitive: inputs equal up to trimming and casing
resolve to the same stored mixture. -/
theorem claim_C5_amended (self : MoziMatrixData) :
    (∀ a b k, (self.findMixtureId [a, b] = .ok k ↔
      self.findMixtureId [b, a] = .ok k)) ∧
    (∀ ids ids' k,
      ids.map (fun id => jsToLower (jsTrim id)) =
        ids'.map (fun id => jsToLower (jsTrim id)) →
      (self.findMixtureKey ids = .ok k ↔
        self.findMixtureKey ids' = .ok k)) := by
  constructor
  · intro a b k
    have h := findMixtureIdLoop_swap (joinSep self.mixtureDelimiter [a, b])
      (joinSep self.mixtureDelimiter [b, a]) self.matrixData
    simp only [MoziMatrixData.findMixtureId, List.reverse_cons,
      List.reverse_nil, List.nil_append, List.cons_append, List.length_cons,
      List.length_nil]
    rw [h]
    cases hl : MoziMatrixData.findMixtureIdLoop
        (joinSep self.mixtureDelimiter [b, a])
        (joinSep self.mixtureDelimiter [a, b]) self.matrixData <;>
      simp [hl]
  · intro ids ids' k hmap
    have hlen : ids.length = ids'.length := by
      have h2 := congrArg List.length hmap
      simpa using h2
    simp only [MoziMatrixData.findMixtureKey]
    by_cases h0 : ids.length = 0
    · have h0' : ids'.length = 0 := by omega
      simp [h0, h0']
    · have h0' : ¬ ids'.length = 0 := by omega
      rw [if_neg h0, if_neg h0']
      rw [hmap]
      cases hl : MoziMatrixData.findMixtureKeyLoop
          (ids'.map (fun id => jsToLower (jsTrim id))) self.matrixData
          self.mixtureKeys with
      | error e => exact Iff.rfl
      | ok opt =>
        cases opt with
        | none => simp [exceptBind_ok_l]
        | some v => exact Iff.rfl

/-- Claim C5 witness: the amended statement applied to the sample
engine: reversed lookup succeeds, and an upper-case mixture id resolves
through `findMixtureKey`. -/
theorem claim_C5_witness :
    sampleEngine.findMixtureId ["ethanol", "methanol"] =
      .ok "methanol|ethanol" ∧
    sampleEngine.findMixtureKey ["METHANOL|ETHANOL"] =
      .ok "methanol|ethanol" := by
  constructor
  · exact ((claim_C5_amended sampleEngine).1 "methanol" "ethanol"
      "methanol|ethanol").mp (by decide)
  · exact ((claim_C5_amended sampleEngine).2 ["methanol|ethanol"]
      ["METHANOL|ETHANOL"] "methanol|ethanol" (by decide)).mp (by decide)

/-- Claim C2 (code_bug): on the example dataset construction succeeds,
but the documented call shape `ijs("a | methanol | ethanol")` throws
instead of returning the 4-entry enumeration: `propertyParser` returns
empty placeholders for the bare-prefix pipe form, so `ijs` asks
`findMixtureId` for the components ["", ""] and no mixture matches. -/
theorem claim_C2_thm :
    mkMoziMatrixData sampleData = .ok sampleEngine ∧
    (propertyParser "a | methanol | ethanol" ["|", "_"]).i = "" ∧
    (propertyParser "a | methanol | ethanol" ["|", "_"]).j = "" ∧
    sampleEngine.ijs "a | methanol | ethanol" "Name-Formula" "_" =
      .error "No mixture found for components , ." :=
  ⟨by decide, by decide, by decide, by decide⟩

/-- Claim C7 (corrected): the keys that `ijs` returns do not round-trip
through `ij` as stated - the stored key omits the property prefix, and
feeding it back to `ij` throws. -/
theorem claim_C7_cex :
    sampleEngine.ijs "a_methanol_ethanol" "Name-Formula" "_" = .ok
      [("methanol-CH3OH_methanol-CH3OH", some (.fin 0)),
       ("methanol-CH3OH_ethanol-C2H5OH", some (.fin 1)),
       ("ethanol-C2H5OH_methanol-CH3OH", some (.fin 2)),
       ("ethanol-C2H5OH_ethanol-C2H5OH", some (.fin 3))] ∧
    exceptIsOk (sampleEngine.ij "methanol-CH3OH_methanol-CH3OH"
      "methanol|ethanol" "Name-Formula" "_") = false :=
  ⟨by decide, by decide⟩

/-- Claim C7, amended: for every key of the map returned by `ijs`,
prepending the property prefix and the key delimiter restores a valid
`ij` reference, and `ij` then reproduces exactly the value stored under
the key; proved for the two-component engine family with arbitrary
coefficient values x1 x2 y1 y2. -/
theorem claim_C7_amended (x1 x2 y1 y2 : ℚ) :
    (mkMoziMatrixData (famData x1 x2 y1 y2) = .ok (famState x1 x2 y1 y2),
     (famState x1 x2 y1 y2).ijs "a_methanol_ethanol" "Name-Formula" "_",
     (famState x1 x2 y1 y2).ij "a_methanol-CH3OH_methanol-CH3OH"
       "methanol|ethanol" "Name-Formula" "_",
     (famState x1 x2 y1 y2).ij "a_methanol-CH3OH_ethanol-C2H5OH"
       "methanol|ethanol" "Name-Formula" "_",
     (famState x1 x2 y1 y2).ij "a_ethanol-C2H5OH_methanol-CH3OH"
       "methanol|ethanol" "Name-Formula" "_",
     (famState x1 x2 y1 y2).ij "a_ethanol-C2H5OH_ethanol-C2H5OH"
       "methanol|ethanol" "Name-Formula" "_") =
    (True,
     .ok [("methanol-CH3OH_methanol-CH3OH", some (.fin x1)),
          ("methanol-CH3OH_ethanol-C2H5OH", some (.fin x2)),
          ("ethanol-C2H5OH_methanol-CH3OH", some (.fin y1)),
          ("ethanol-C2H5OH_ethanol-C2H5OH", some (.fin y2))],
     .ok { symbol := "a_methanol-CH3OH_methanol-CH3OH",
           value := some (.fin x1), unit := "1" },
     .ok { symbol := "a_methanol-CH3OH_ethanol-C2H5OH",
           value := some (.fin x2), unit := "1" },
     .ok { symbol := "a_ethanol-C2H5OH_methanol-CH3OH",
           value := some (.fin y1), unit := "1" },
     .ok { symbol := "a_ethanol-C2H5OH_ethanol-C2H5OH",
           value := some (.fin y2), unit := "1" }) := by
  refine Prod.ext ?_ (Prod.ext ?_ (Prod.ext ?_ (Prod.ext ?_ (Prod.ext ?_ ?_))))
  · simp only [eq_iff_iff, iff_true]
    rfl
  all_goals rfl

/-- Claim C1 (corrected): normalizing a mixture whose first group also
carries a b_i_j row yields a props list with the single symbol "a" -
the part before the propIdentifier, not the full "a_i_j" prefix, and
reflecting only the last row group (the b-prefix of the first group is
absent). -/
theorem claim_C1_cex :
    (MoziMatrixData.normalizeMixture c1Data "|" "_i_j").map
      (fun md => (objGet md "methanol|ethanol").map MixtureEntry.props) =
    .ok (some [{ symbol := "a", unit := "1" }]) := by decide

/-- Claim C6 (corrected): a mixture label fed by three row groups, the
third duplicating a declared component, does not throw - construction
succeeds and the duplicate's coefficient values silently overwrite the
earlier methanol row. -/
theorem claim_C6_cex :
    exceptIsOk (mkMoziMatrixData threeDupData) = true ∧
    (mkMoziMatrixData threeDupData).map MoziMatrixData.mixturePropertyMatrices
      = .ok [("methanol|ethanol",
          [("a", [some [.fin 9, .fin 8], some [.fin 2, .fin 3]])])] :=
  ⟨by decide, by decide⟩

theorem assignMixtureKeys_ge2 :
    ∀ {l md}, MoziMatrixData.assignMixtureKeys l = .ok md →
      ∀ p ∈ md, 2 ≤ p.2.components.length := by
  intro l
  induction l with
  | nil =>
    intro md h p hp
    simp only [MoziMatrixData.assignMixtureKeys] at h
    cases h
    simp at hp
  | cons hd tl ih =>
    intro md h p hp
    obtain ⟨name, e⟩ := hd
    simp only [MoziMatrixData.assignMixtureKeys] at h
    obtain ⟨k, hk, h2⟩ := exceptBind_eq_ok h
    obtain ⟨rest', hrest, h3⟩ := exceptBind_eq_ok h2
    cases h3
    rcases List.mem_cons.mp hp with h4 | hmem
    · subst h4
      cases he : e.components with
      | nil => rw [he] at hk; exact absurd hk (by simp [findMixtureKeyFromComponents])
      | cons c1 rest =>
        cases rest with
        | nil => rw [he] at hk; exact absurd hk (by simp [findMixtureKeyFromComponents])
        | cons c2 rest2 => simp [he]
    · exact ih hrest p hmem

/-- Claim C6, amended: construction rejects a label with fewer than two
component groups (every successfully normalized entry has at least two
components, and the one-group dataset throws), and a third group whose
component does not match the label also throws; but a third group
duplicating a declared component is silently absorbed, contrary to the
claim's blanket rejection. -/
theorem claim_C6_amended :
    (∀ data d pI md, MoziMatrixData.normalizeMixture data d pI = .ok md →
      ∀ p ∈ md, 2 ≤ p.2.components.length) ∧
    exceptIsOk (mkMoziMatrixData oneGroupData) = false ∧
    exceptIsOk (mkMoziMatrixData threeDistinctData) = false := by
  refine ⟨?_, by decide, by decide⟩
  intro data d pI md h p hp
  simp only [MoziMatrixData.normalizeMixture] at h
  obtain ⟨populated, hpop, hassign⟩ := exceptBind_eq_ok h
  exact assignMixtureKeys_ge2 hassign p hp

/-- Claim C6 witness: the amended statement applied to the sample
dataset's normalized head entry. -/
theorem claim_C6_witness :
    2 ≤ ((sampleEngine.matrixData.headD
      ("", ⟨none, [], [], [], [], []⟩)).2.components.length) :=
  claim_C6_amended.1 sampleData "|" "_i_j" sampleEngine.matrixData (by decide)
    (sampleEngine.matrixData.headD ("", ⟨none, [], [], [], [], []⟩))
    (by decide)

theorem normalizeStep_bad {d pI : String} {st}
    {g : List RawThermoRecord} (h : badIdentityGroup g = true) :
    exceptIsOk (MoziMatrixData.normalizeStep d pI st g) = false := by
  unfold badIdentityGroup hasMixtureRow at h
  rw [Bool.and_eq_true] at h
  obtain ⟨hmix, hmiss⟩ := h
  rw [Option.isSome_iff_exists] at hmix
  obtain ⟨r, hr⟩ := hmix
  cases hn : g.find? (fun r => jsToLower r.name = "name") <;>
    cases hf : g.find? (fun r => jsToLower r.name = "formula") <;>
      cases hs : g.find? (fun r => jsToLower r.name = "state") <;>
        first
          | (simp only [MoziMatrixData.normalizeStep, hr, hn, hf, hs]; rfl)
          | (rw [hn, hf, hs] at hmiss; simp at hmiss)

theorem normalizeStep_skip {d pI : String} {st} {g : List RawThermoRecord}
    (h : hasMixtureRow g = false) :
    MoziMatrixData.normalizeStep d pI st g = .ok st := by
  unfold hasMixtureRow at h
  cases hm : g.find? (fun r => jsToLower r.name = "mixture") with
  | some r => rw [hm] at h; simp at h
  | none => simp [MoziMatrixData.normalizeStep, hm]

theorem foldlM_step_bad {d pI : String} :
    ∀ (data : List (List RawThermoRecord)) st,
      (∃ g ∈ data, badIdentityGroup g = true) →
      exceptIsOk (data.foldlM (MoziMatrixData.normalizeStep d pI) st) =
        false := by
  intro data
  induction data with
  | nil =>
    rintro st ⟨g, hg, _⟩
    simp at hg
  | cons a l ih =>
    rintro st ⟨g, hg, hbad⟩
    rw [List.foldlM_cons]
    cases hstep : MoziMatrixData.normalizeStep d pI st a with
    | error e => rw [exceptBind_err_l]; rfl
    | ok st' =>
      rcases List.mem_cons.mp hg with h4 | hgl
      · subst h4
        have hb := @normalizeStep_bad d pI st g hbad
        rw [hstep] at hb
        simp [exceptIsOk] at hb
      · rw [exceptBind_ok_l]
        exact ih st' ⟨g, hgl, hbad⟩

theorem filterMap_filter_isSome {α β : Type} (f : α → Option β)
    (p : α → Bool) (h : ∀ a, p a = (f a).isSome) :
    ∀ l : List α, (l.filter p).filterMap f = l.filterMap f := by
  intro l
  induction l with
  | nil => rfl
  | cons a l ih =>
    by_cases hp : p a = true
    · have hf : (f a).isSome = true := by rw [← h]; exact hp
      obtain ⟨b, hb⟩ := Option.isSome_iff_exists.mp hf
      rw [List.filter_cons_of_pos hp]
      simp only [List.filterMap_cons, hb]
      rw [ih]
    · have hf : f a = none := by
        have h2 := h a
        rw [Bool.eq_false_iff.mpr hp] at h2
        exact Option.not_isSome_iff_eq_none.mp (by rw [← h2]; simp)
      rw [List.filter_cons_of_neg (by simp [hp])]
      simp only [List.filterMap_cons, hf]
      exact ih

theorem getMixtureNames_filter (data : List (List RawThermoRecord)) :
    MoziMatrixData.getMixtureNames (data.filter hasMixtureRow) =
      MoziMatrixData.getMixtureNames data := by
  unfold MoziMatrixData.getMixtureNames
  congr 1
  apply filterMap_filter_isSome
  intro a
  unfold hasMixtureRow
  simp

theorem foldlM_step_filter {d pI : String} :
    ∀ (data : List (List RawThermoRecord)) st,
      (data.filter hasMixtureRow).foldlM
        (MoziMatrixData.normalizeStep d pI) st =
      data.foldlM (MoziMatrixData.normalizeStep d pI) st := by
  intro data
  induction data with
  | nil => intro st; rfl
  | cons a l ih =>
    intro st
    by_cases h : hasMixtureRow a = true
    · rw [List.filter_cons_of_pos h, List.foldlM_cons, List.foldlM_cons]
      cases hstep : MoziMatrixData.normalizeStep d pI st a with
      | error e => rw [exceptBind_err_l, exceptBind_err_l]
      | ok st' => rw [exceptBind_ok_l, exceptBind_ok_l]; exact ih st'
    · have h' : hasMixtureRow a = false := by simpa using h
      rw [List.filter_cons_of_neg (by simp [h']), List.foldlM_cons,
        normalizeStep_skip h', exceptBind_ok_l]
      exact ih st

/-- Claim C9 (confirmed): a row group with a Mixture row but a missing
Name/Formula/State identity row makes normalization (and hence the
constructor) throw, while row groups without a Mixture row are ignored:
filtering them away does not change the result of normalization. -/
theorem claim_C9 :
    (∀ (data : List (List RawThermoRecord)) d pI,
      (∃ g ∈ data, badIdentityGroup g = true) →
      exceptIsOk (MoziMatrixData.normalizeMixture data d pI) = false) ∧
    (∀ data, (∃ g ∈ data, badIdentityGroup g = true) →
      exceptIsOk (mkMoziMatrixData data) = false) ∧
    (∀ (data : List (List RawThermoRecord)) d pI,
      MoziMatrixData.normalizeMixture data d pI =
        MoziMatrixData.normalizeMixture (data.filter hasMixtureRow) d pI) := by
  have hnorm : ∀ (data : List (List RawThermoRecord)) d pI,
      (∃ g ∈ data, badIdentityGroup g = true) →
      exceptIsOk (MoziMatrixData.normalizeMixture data d pI) = false := by
    intro data d pI hex
    simp only [MoziMatrixData.normalizeMixture]
    exact exceptIsOk_bind_false (foldlM_step_bad data _ hex)
  refine ⟨hnorm, ?_, ?_⟩
  · intro data hex
    simp only [mkMoziMatrixData]
    exact exceptIsOk_bind_false (hnorm data "|" "_i_j" hex)
  · intro data d pI
    simp only [MoziMatrixData.normalizeMixture]
    rw [getMixtureNames_filter, foldlM_step_filter]

/-- Claim C9 witness: the State-less group makes normalization of the
concrete dataset fail. -/
theorem claim_C9_witness :
    exceptIsOk (MoziMatrixData.normalizeMixture noStateData "|" "_i_j") =
      false :=
  claim_C9.1 noStateData "|" "_i_j" ⟨noStateG, by decide, by decide⟩

/-- Claim C10 (confirmed): `cleanRawThermoRecord` keeps exactly the
rows whose name is not an exact member of the ignore list and whose
value coerces to a non-NaN number; a whitespace-only string value is
coerced to 0 and kept; a Mixture label row is dropped only because its
label coerces to NaN ("Mixture" is not in the ignore list), and the
name filter is case-sensitive (a row named NAME is kept). -/
theorem claim_C10 :
    (∀ (data : List RawThermoRecord) (ignoreNames : List String)
        (rec : ThermoRecord),
      rec ∈ cleanRawThermoRecord data ignoreNames ↔
        ∃ r ∈ data, ignoreNames.contains r.name = false ∧
          jsIsNaN (jsCoerceNum r.value) = false ∧
          rec = { name := r.name, symbol := r.symbol,
                  value := jsCoerceNum r.value, unit := r.unit }) ∧
    cleanRawThermoRecord [wsRow] defaultIgnoreNames =
      [{ name := "x", symbol := "w", value := .fin 0, unit := "u" }] ∧
    defaultIgnoreNames.contains "Mixture" = false ∧
    cleanRawThermoRecord [mixLabelRow] defaultIgnoreNames = [] ∧
    jsParseNum "methanol|ethanol" = .nan ∧
    cleanRawThermoRecord [upperNameRow] defaultIgnoreNames =
      [{ name := "NAME", symbol := "n", value := .fin 5, unit := "u" }] := by
  refine ⟨?_, by decide, by decide, by decide, by decide, by decide⟩
  intro data ignoreNames rec
  unfold cleanRawThermoRecord
  rw [List.mem_flatMap]
  constructor
  · rintro ⟨r, hr, hrec⟩
    rw [List.mem_filter] at hr
    obtain ⟨hrd, hfil⟩ := hr
    cases hna : jsIsNaN (jsCoerceNum r.value) with
    | true => simp [hna] at hrec
    | false =>
      simp only [hna] at hrec
      simp only [Bool.not_false, if_true] at hrec
      rw [List.mem_singleton] at hrec
      exact ⟨r, hrd, by simpa using hfil, hna, hrec⟩
  · rintro ⟨r, hrd, hign, hna, hrec⟩
    refine ⟨r, ?_, ?_⟩
    · rw [List.mem_filter]
      refine ⟨hrd, ?_⟩
      simpa using hign
    · simp [hna, hrec]

/-- Claim C10 witness: the characterization applied to the
whitespace-valued row, which is kept with value 0. -/
theorem claim_C10_witness :
    ({ name := "x", symbol := "w", value := .fin 0, unit := "u" } :
      ThermoRecord) ∈ cleanRawThermoRecord [wsRow] defaultIgnoreNames :=
  (claim_C10.1 [wsRow] defaultIgnoreNames _).mpr
    ⟨wsRow, by decide, by decide, by decide, by decide⟩

theorem propsFold_sub_symbol :
    ∀ (items acc : List Props) (s : String),
      s ∈ acc.map Props.symbol →
      s ∈ (items.foldl propsInsert acc).map Props.symbol := by
  intro items
  induction items with
  | nil => intro acc s h; exact h
  | cons it l ih =>
    intro acc s h
    rw [List.foldl_cons]
    apply ih
    unfold propsInsert
    split
    · exact h
    · rw [List.map_append]
      exact List.mem_append_left _ h

theorem propsFold_mem_item :
    ∀ (items acc : List Props) (it : Props), it ∈ items →
      it.symbol ∈ (items.foldl propsInsert acc).map Props.symbol := by
  intro items
  induction items with
  | nil => intro acc it h; simp at h
  | cons a l ih =>
    intro acc it h
    rw [List.foldl_cons]
    rcases List.mem_cons.mp h with h4 | hmem
    · subst h4
      apply propsFold_sub_symbol
      unfold propsInsert
      by_cases hc : acc.any (fun p => p.symbol = it.symbol) = true
      · rw [if_pos hc]
        rcases List.any_eq_true.mp hc with ⟨p, hp, hps⟩
        exact List.mem_map.mpr ⟨p, hp, of_decide_eq_true hps⟩
      · rw [if_neg hc, List.map_append]
        exact List.mem_append_right _ (by simp)
    · exact ih _ it hmem

theorem propsFold_src :
    ∀ (items acc : List Props) (p : Props),
      p ∈ items.foldl propsInsert acc → p ∈ acc ∨ p ∈ items := by
  intro items
  induction items with
  | nil => intro acc p h; exact Or.inl h
  | cons a l ih =>
    intro acc p h
    rw [List.foldl_cons] at h
    rcases ih _ p h with hacc | hl
    · unfold propsInsert at hacc
      split at hacc
      · exact Or.inl hacc
      · rcases List.mem_append.mp hacc with h1 | h2
        · exact Or.inl h1
        · exact Or.inr (List.mem_cons.mpr (Or.inl (List.mem_singleton.mp h2)))
    · exact Or.inr (List.mem_cons_of_mem _ hl)

theorem propsFold_nodup :
    ∀ (items acc : List Props), (acc.map Props.symbol).Nodup →
      ((items.foldl propsInsert acc).map Props.symbol).Nodup := by
  intro items
  induction items with
  | nil => intro acc h; exact h
  | cons a l ih =>
    intro acc h
    rw [List.foldl_cons]
    apply ih
    unfold propsInsert
    by_cases hc : acc.any (fun p => p.symbol = a.symbol) = true
    · rw [if_pos hc]; exact h
    · rw [if_neg hc, List.map_append, List.nodup_append]
      refine ⟨h, List.nodup_singleton _, ?_⟩
      intro s hs
      rcases List.mem_map.mp hs with ⟨p, hp, h5⟩
      subst h5
      simp only [List.map_cons, List.map_nil, List.mem_singleton]
      intro heq
      exact hc (List.any_eq_true.mpr ⟨p, hp, decide_eq_true heq⟩)

/-- Claim C1, amended: the props list holds exactly one entry per
distinct prefix, where the prefix is the part of the row symbol before
the first occurrence of the propIdentifier substring (rows a_i_j_1 and
a_i_j_2 collapse to the single symbol "a", not "a_i_j"), and the
mixture entry's props reflects the last row group processed for the
label, not the union across groups. -/
theorem claim_C1_amended :
    (∀ (data : List RawThermoRecord) (pI : String),
      ((getMixtureProps data pI).map Props.symbol).Nodup ∧
      (∀ r ∈ data, jsIncludes r.symbol pI = true →
        (jsSplit r.symbol pI).headD "" ∈
          (getMixtureProps data pI).map Props.symbol) ∧
      (∀ p ∈ getMixtureProps data pI, ∃ r ∈ data,
        jsIncludes r.symbol pI = true ∧
        p.symbol = (jsSplit r.symbol pI).headD "" ∧ p.unit = r.unit)) ∧
    (MoziMatrixData.normalizeMixture c1Data "|" "_i_j").map
      (fun md => (objGet md "methanol|ethanol").map MixtureEntry.props) =
      .ok (some (getMixtureProps c1G2 "_i_j")) := by
  refine ⟨?_, by decide⟩
  intro data pI
  refine ⟨?_, ?_, ?_⟩
  · simp only [getMixtureProps]
    exact propsFold_nodup _ _ (by simp)
  · intro r hr hincl
    simp only [getMixtureProps]
    have hrf : r ∈ data.filter (fun record => jsIncludes record.symbol pI) :=
      List.mem_filter.mpr ⟨hr, by simp [hincl]⟩
    exact propsFold_mem_item _ _
      ({ symbol := (jsSplit r.symbol pI).headD "", unit := r.unit } : Props)
      (List.mem_map.mpr ⟨r, hrf, rfl⟩)
  · intro p hp
    simp only [getMixtureProps] at hp
    rcases propsFold_src _ _ p hp with h0 | hitem
    · simp at h0
    · rcases List.mem_map.mp hitem with ⟨r, hrf, h6⟩
      subst h6
      rcases List.mem_filter.mp hrf with ⟨hrd, hincl⟩
      exact ⟨r, hrd, by simpa using hincl, rfl, rfl⟩

/-- Claim C1 witness: the amended statement applied to the group
carrying rows a_i_j_1, a_i_j_2, b_i_j_1: the split-off prefix "a" is a
props symbol. -/
theorem claim_C1_witness :
    "a" ∈ (getMixtureProps c1G1 "_i_j").map Props.symbol := by
  have h := (claim_C1_amended.1 c1G1 "_i_j").2.1
    ({ name := "a constant 1", symbol := "a_i_j_1", value := .num (.fin 0),
       unit := "1" } : RawThermoRecord) (by decide) (by decide)
  exact h

theorem jsIndexNat_natCast (n : ℕ) : jsIndexNat (.fin (n : ℚ)) = some n := by
  simp [jsIndexNat, Rat.den_natCast, Rat.num_natCast]

/-- Claim C3 (confirmed): whenever the lookups involved resolve,
`getMatrixProperty(p, [A, B], m)` reads exactly the matrix cell at the
row index of A and the column index of B (as assigned by
`getComponentIndex` under the mixture's own key), and the swapped call
reads the transposed cell. -/
theorem claim_C3 (self : MoziMatrixData) (p m ck kd : String)
    (A B : Component) {entry : MixtureEntry} {mk u : String}
    {mat : JSMatrix} {idx : List (String × Nat)} {iA iB : Nat}
    {rowA rowB : List JSNum}
    (hentry : objGet self.matrixData m = some entry)
    (hmk : entry.mixtureKey = some mk)
    (hu : self.getPropertyUnit m
      (propertyParser p ["|", "_"]).propertyPfx = .ok u)
    (hmat : self.getPropertyMatrix m
      (propertyParser p ["|", "_"]).propertyPfx = .ok mat)
    (hidx : MoziMatrixData.getComponentIndex self.matrixData m = .ok idx)
    (hiA : objGet idx (set_component_id A mk) = some iA)
    (hiB : objGet idx (set_component_id B mk) = some iB)
    (hrA : mat.getD iA none = some rowA)
    (hrB : mat.getD iB none = some rowB) :
    self.getMatrixProperty p [A, B] m ck kd = .ok
      { symbol := generateMixturePropertyKey
          (propertyParser p ["|", "_"]).propertyPfx A B ck kd,
        value := rowA.get? iB, unit := u } ∧
    self.getMatrixProperty p [B, A] m ck kd = .ok
      { symbol := generateMixturePropertyKey
          (propertyParser p ["|", "_"]).propertyPfx B A ck kd,
        value := rowB.get? iA, unit := u } := by
  constructor <;>
    simp only [MoziMatrixData.getMatrixProperty, hu, exceptBind_ok_l, hmat,
      hidx, hentry, Option.some_bind, hmk, hiA, hiB, jsMatrixRow,
      jsIndexNat_natCast, hrA, hrB, jsRowCell]

/-- Claim C3 witness: on the sample engine the two argument orders read
the swapped cells 1 and 2, which differ. -/
theorem claim_C3_witness :
    sampleEngine.getMatrixProperty "a_i_j" [methanolC, ethanolC]
      "methanol|ethanol" "Name-Formula" "_" =
      .ok { symbol := "a_methanol-CH3OH_ethanol-C2H5OH",
            value := some (.fin 1), unit := "1" } ∧
    sampleEngine.getMatrixProperty "a_i_j" [ethanolC, methanolC]
      "methanol|ethanol" "Name-Formula" "_" =
      .ok { symbol := "a_ethanol-C2H5OH_methanol-CH3OH",
            value := some (.fin 2), unit := "1" } ∧
    (some (JSNum.fin 1) : Option JSNum) ≠ some (.fin 2) := by
  refine ⟨?_, ?_, by decide⟩
  · exact (claim_C3 sampleEngine "a_i_j" "methanol|ethanol" "Name-Formula" "_"
      methanolC ethanolC rfl rfl rfl rfl rfl rfl rfl rfl rfl).1
  · exact (claim_C3 sampleEngine "a_i_j" "methanol|ethanol" "Name-Formula" "_"
      ethanolC methanolC rfl rfl rfl rfl rfl rfl rfl rfl rfl).1

theorem isPrefixOf_append_self (l m : List Char) :
    l.isPrefixOf (l ++ m) = true := by
  induction l with
  | nil => simp [List.isPrefixOf]
  | cons c cs ih => simp [List.isPrefixOf, ih]

theorem jsStartsWith_append (a b : String) :
    jsStartsWith (a ++ b) a = true := by
  unfold jsStartsWith
  rw [show (a ++ b).toList = a.toList ++ b.toList from String.data_append a b]
  exact isPrefixOf_append_self _ _

theorem jsSliceFrom_append (a b : String) :
    jsSliceFrom (a ++ b) (jsStrLen a) = b := by
  unfold jsSliceFrom jsStrLen
  rw [show (a ++ b).toList = a.toList ++ b.toList from String.data_append a b]
  rw [List.drop_left]
  rfl

/-- Relation carrying the correspondence between a mapped
(value, column-index) pair of `buildRow` and a spec-side
(suffix, value) pair. -/
def sortKeyRel (e : JSNum × JSNum) (p : ℚ × JSNum) : Prop :=
  e.1 = p.2 ∧ e.2 = .fin p.1

theorem rel_mem_left {α β : Type} {R : α → β → Prop} {l : List α}
    {m : List β} (h : List.Forall₂ R l m) : ∀ a ∈ l, ∃ b, R a b := by
  induction h with
  | nil => intro a ha; simp at ha
  | cons h1 h2 ih =>
    intro a ha
    rcases List.mem_cons.mp ha with h3 | h4
    · exact h3 ▸ ⟨_, h1⟩
    · exact ih a h4

theorem ordIns_rel {a : JSNum × JSNum} {p : ℚ × JSNum}
    {l : List (JSNum × JSNum)} {m : List (ℚ × JSNum)}
    (hap : sortKeyRel a p) (h : List.Forall₂ sortKeyRel l m) :
    List.Forall₂ sortKeyRel
      (jsOrderedInsert (fun x y => jsCmpLe x.2 y.2) a l)
      (List.orderedInsert (fun x y => x.1 ≤ y.1) p m) := by
  induction h with
  | nil =>
    exact List.Forall₂.cons hap List.Forall₂.nil
  | @cons b q l' m' hbq hlm ih =>
    simp only [jsOrderedInsert, List.orderedInsert]
    simp only [hap.2, hbq.2]
    by_cases hle : p.1 ≤ q.1
    · rw [if_pos (show jsCmpLe (.fin p.1) (.fin q.1) = true by
        simp [jsCmpLe, hle]), if_pos hle]
      exact List.Forall₂.cons hap (List.Forall₂.cons hbq hlm)
    · rw [if_neg (show ¬ jsCmpLe (.fin p.1) (.fin q.1) = true by
        simp [jsCmpLe, hle]), if_neg hle]
      exact List.Forall₂.cons hbq ih

theorem sort_rel {l : List (JSNum × JSNum)} {m : List (ℚ × JSNum)}
    (h : List.Forall₂ sortKeyRel l m) :
    List.Forall₂ sortKeyRel (jsSortLe (fun x y => jsCmpLe x.2 y.2) l)
      (List.insertionSort (fun x y => x.1 ≤ y.1) m) := by
  induction h with
  | nil => exact List.Forall₂.nil
  | @cons b q l' m' hbq hlm ih =>
    simp only [jsSortLe, List.insertionSort]
    exact ordIns_rel hbq ih

theorem rel_map_eq {l : List (JSNum × JSNum)} {m : List (ℚ × JSNum)}
    (h : List.Forall₂ sortKeyRel l m) :
    l.map Prod.fst = m.map Prod.snd := by
  induction h with
  | nil => rfl
  | cons hbq hlm ih => simp [List.map_cons, hbq.1, ih]

theorem c4_map_rel {propId : String} {rs : List ThermoRecord}
    {ps : List (ℚ × JSNum)}
    (H : List.Forall₂ (fun (r : ThermoRecord) (p : ℚ × JSNum) =>
      (∃ sfx : String, r.symbol = (propId ++ "_") ++ sfx ∧
        jsParseNum sfx = .fin p.1) ∧ r.value = p.2) rs ps) :
    List.Forall₂ sortKeyRel
      (rs.map (fun r => (r.value,
        jsParseNum (jsSliceFrom r.symbol (jsStrLen (propId ++ "_")))))) ps := by
  induction H with
  | nil => exact List.Forall₂.nil
  | @cons r p rs' ps' hrp hrest ih =>
    refine List.Forall₂.cons ⟨hrp.2, ?_⟩ ih
    obtain ⟨⟨sfx, hsym, hparse⟩, -⟩ := hrp
    show jsParseNum (jsSliceFrom r.symbol (jsStrLen (propId ++ "_"))) =
      .fin p.1
    rw [hsym, jsSliceFrom_append]
    exact hparse

/-- Claim C4 (confirmed): for any property prefix and any component
record list whose symbols are the prefix, an underscore and a
numerically parsing suffix, `buildRow` (the per-component body of
`buildPropertyMatrix`) emits the values ordered by the parsed numeric
suffix - the specification-side sort by numeric key - and never by
lexical symbol order. -/
theorem claim_C4 (propId componentId mixtureId : String)
    (rs : List ThermoRecord) (ps : List (ℚ × JSNum)) (hne : rs ≠ [])
    (H : List.Forall₂ (fun (r : ThermoRecord) (p : ℚ × JSNum) =>
      (∃ sfx : String, r.symbol = (propId ++ "_") ++ sfx ∧
        jsParseNum sfx = .fin p.1) ∧ r.value = p.2) rs ps) :
    MoziMatrixData.buildRow propId rs componentId mixtureId =
      .ok (specSortedRow ps) := by
  have hstart : ∀ r ∈ rs, jsStartsWith r.symbol (propId ++ "_") = true := by
    intro r hr
    obtain ⟨p, hrel⟩ := rel_mem_left H r hr
    obtain ⟨⟨sfx, hsym, -⟩, -⟩ := hrel
    rw [hsym]
    exact jsStartsWith_append _ _
  simp only [MoziMatrixData.buildRow]
  rw [List.filter_eq_self.mpr hstart]
  rw [if_neg (fun h0 => hne (List.length_eq_zero.mp h0))]
  congr 1
  rw [specSortedRow]
  exact rel_map_eq (sort_rel (c4_map_rel H))

/-- Claim C4 witness: rows p_1 ... p_10 listed in lexical order come
out as matrix columns [v1, v2, ..., v10] in numeric order. -/
theorem claim_C4_witness :
    MoziMatrixData.buildRow "p" lexRows "c" "m" =
      .ok [.fin 1, .fin 2, .fin 3, .fin 4, .fin 5, .fin 6, .fin 7, .fin 8,
           .fin 9, .fin 10] := by
  have hF : List.Forall₂ (fun (r : ThermoRecord) (p : ℚ × JSNum) =>
      (∃ sfx : String, r.symbol = ("p" ++ "_") ++ sfx ∧
        jsParseNum sfx = .fin p.1) ∧ r.value = p.2) lexRows lexPairs := by
    refine .cons ⟨⟨"1", by decide, by decide⟩, by decide⟩ ?_
    refine .cons ⟨⟨"10", by decide, by decide⟩, by decide⟩ ?_
    refine .cons ⟨⟨"2", by decide, by decide⟩, by decide⟩ ?_
    refine .cons ⟨⟨"3", by decide, by decide⟩, by decide⟩ ?_
    refine .cons ⟨⟨"4", by decide, by decide⟩, by decide⟩ ?_
    refine .cons ⟨⟨"5", by decide, by decide⟩, by decide⟩ ?_
    refine .cons ⟨⟨"6", by decide, by decide⟩, by decide⟩ ?_
    refine .cons ⟨⟨"7", by decide, by decide⟩, by decide⟩ ?_
    refine .cons ⟨⟨"8", by decide, by decide⟩, by decide⟩ ?_
    refine .cons ⟨⟨"9", by decide, by decide⟩, by decide⟩ ?_
    exact .nil
  have h := claim_C4 "p" "c" "m" lexRows lexPairs (by decide) hF
  rw [h]
  decide

/-- Claim C8 (corrected): mode selection is by the non-NaN test, not by
finiteness - the placeholder Infinity parses to a non-finite number yet
yields numeric mode. -/
theorem claim_C8_cex :
    (propertyParser "a_Infinity_2" ["|", "_"]).mode = .numeric ∧
    jsParseNum "Infinity" = .inf true ∧
    (propertyParser "a_Infinity_2" ["|", "_"]).i = "Infinity" :=
  ⟨by decide, by decide, by decide⟩

theorem parser_mode_eq (s : String) :
    (propertyParser s ["|", "_"]).mode =
      parseMode (propertyParser s ["|", "_"]).i
        (propertyParser s ["|", "_"]).j := by
  rcases hfind : (["|", "_"].filter (fun d => d ≠ "")).find?
      (fun d => jsIncludes (jsTrim s) d) with _ | md
  · simp only [propertyParser, hfind]
    rfl
  · rcases hnest : (["|", "_"].filter (fun d => d ≠ "")).find?
        (fun d => d ≠ md ∧
          jsIncludes (((jsSplit (jsTrim s) md).map jsTrim).headD "") d)
        with _ | nd
    · simp only [propertyParser, hfind, hnest]
      by_cases hidx : (["|", "_"].filter (fun d => d ≠ "")).indexOf md = 0 ∧
          (["|", "_"].filter (fun d => d ≠ "")).length > 1
      · rw [if_pos hidx]
        rfl
      · rw [if_neg hidx]
    · simp only [propertyParser, hfind, hnest]

theorem parseMode_spec (iv jv : String) (hi : iv ≠ "") (hj : jv ≠ "") :
    (parseMode iv jv = .numeric ↔
      jsIsNaN (jsParseNum iv) = false ∧ jsIsNaN (jsParseNum jv) = false) := by
  unfold parseMode
  rw [if_pos ⟨hi, hj⟩]
  by_cases h1 : jsIsNaN (jsParseNum iv) = true <;>
    by_cases h2 : jsIsNaN (jsParseNum jv) = true <;>
      simp [h1, h2]

/-- Claim C8, amended: `propertyParser` is total by construction; with
no recognized delimiter it returns the whole trimmed string as the
property part with both placeholders stored as empty strings and
component mode; when both placeholders are present, the mode is numeric
iff Number of both placeholders is not NaN (so the non-finite Infinity
also counts as numeric); and "prefix_comp1_comp2" parses into
(prefix, comp1, comp2) in component mode. -/
theorem claim_C8_amended :
    (∀ s : String,
      (["|", "_"].filter (fun d => d ≠ "")).find?
        (fun d => jsIncludes (jsTrim s) d) = none →
      propertyParser s ["|", "_"] =
        { propertyPfx := jsTrim s, propertyDelimiter := "", i := "", j := "",
          mode := .component }) ∧
    (∀ s : String,
      (propertyParser s ["|", "_"]).i ≠ "" →
      (propertyParser s ["|", "_"]).j ≠ "" →
      ((propertyParser s ["|", "_"]).mode = .numeric ↔
        (jsIsNaN (jsParseNum ((propertyParser s ["|", "_"]).i)) = false ∧
         jsIsNaN (jsParseNum ((propertyParser s ["|", "_"]).j)) = false))) ∧
    propertyParser "prefix_comp1_comp2" ["|", "_"] =
      { propertyPfx := "prefix", propertyDelimiter := "_", i := "comp1",
        j := "comp2", mode := .component } := by
  refine ⟨?_, ?_, by decide⟩
  · intro s h
    simp only [propertyParser, h]
  · intro s hi hj
    rw [parser_mode_eq]
    exact parseMode_spec _ _ hi hj

/-- Claim C8 witness: the amended mode rule applied at "a_1_2", whose
placeholders are nonempty and both parse as numbers. -/
theorem claim_C8_witness :
    (propertyParser "a_1_2" ["|", "_"]).mode = .numeric := by
  have h := claim_C8_amended.2.1 "a_1_2" (by decide) (by decide)
  exact h.mpr ⟨by decide, by decide⟩
